import Mathlib

/-!
Shallow embedding of `src/rootfs_pi/tvd.c` (Simpsons TV daemon).

The daemon's mutable state is the set of C globals (`ffmpeg_pid`,
`ffmpeg_paused`, `pending_single`, `pending_deadline_ms`, `state`) together
with the `main`-local variables (`ts.touching`, `ts.t_down_ms`,
`last_switch_poll`), gathered in one structure `DaemonState`.

OS interactions are modelled by explicit environment parameters:
liveness probes (`kill(pid, 0)` results), the outcome of
`pick_random_video` (found a file or not), and the pid returned by `fork`.
Signals sent to the playback process group and gesture actions emitted by
the controller are collected in output lists so that theorems can speak
about them.

Pure side effects with no influence on control flow (framebuffer writes,
backlight commands, logging) are not modelled; sleeps are modelled by
accumulating the slept milliseconds where a claim is about timing.
-/

namespace Tvd

/-- `tv_state_t` from tvd.c: `typedef enum { ST_OFF=0, ST_PLAYING=1, ST_PAUSED=2 }`. -/
inductive tv_state_t where
  | ST_OFF
  | ST_PLAYING
  | ST_PAUSED
deriving DecidableEq, Repr

/-- Signals the daemon sends to the playback process group via `kill(-ffmpeg_pid, ·)`. -/
inductive Sig where
  | SIGTERM
  | SIGKILL
  | SIGSTOP
  | SIGCONT
deriving DecidableEq, Repr

/-- Gesture actions emitted by the controller loop: `do_pause_toggle` is invoked
at the single-tap site (expiry of the pending window, main step 3) and
`do_next_episode` at the double-tap site (second release while pending, main step 2). -/
inductive Act where
  | single_tap
  | double_tap
deriving DecidableEq, Repr

/-- The daemon's mutable state: C globals plus `main`-local variables.
`ffmpeg_pid`, `ffmpeg_paused` (lines 195-196), `pending_single`,
`pending_deadline_ms` (lines 321-322), `state` (line 336),
`ts.touching`, `ts.t_down_ms` (struct `touch_state_t`, lines 310-313),
`last_switch_poll` (line 427). -/
structure DaemonState where
  ffmpeg_pid : Int
  ffmpeg_paused : Bool
  pending_single : Bool
  pending_deadline_ms : Int
  state : tv_state_t
  touching : Bool
  t_down_ms : Int
  last_switch_poll : Int
deriving DecidableEq, Repr

/-- Initial values of the globals and locals at entry to `main`
(after `touch_state_reset` and `long long last_switch_poll = 0`). -/
def initDaemon : DaemonState :=
  { ffmpeg_pid := -1
    ffmpeg_paused := false
    pending_single := false
    pending_deadline_ms := 0
    state := .ST_OFF
    touching := false
    t_down_ms := 0
    last_switch_poll := 0 }

/-- Environment (OS) answers consumed during one daemon operation. -/
structure Env where
  /-- Result of the `kill(ffmpeg_pid, 0) == 0` probe in `ffmpeg_alive` outside
  the stop wait loop (the pid-tracked part of `ffmpeg_alive` is separate). -/
  alive : Bool
  /-- Result of the `i`-th `ffmpeg_alive` probe inside `stop_playback`'s wait loop. -/
  stop_alive : Nat → Bool
  /-- Result of `pick_random_video()`: `some v` when a file was selected, `none`
  when the library is empty / the pipeline produced no line. -/
  pick : Option Nat
  /-- Result of `fork()` in `start_playback` (`> 0`: parent sees the child pid). -/
  fork_pid : Int

-- Constants from tvd.c (lines 35-43).
def STATIC_MS : Nat := 250
def STATIC_FRAMES : Nat := 3
def HOLD_MS : Int := 1200
def DOUBLE_TAP_WINDOW_MS : Int := 320
def SWITCH_POLL_MS : Int := 40

/-- `ffmpeg_alive()` (line 198): `ffmpeg_pid > 0 && kill(ffmpeg_pid, 0) == 0`. -/
def ffmpeg_alive (pid : Int) (kill0_ok : Bool) : Bool :=
  decide (0 < pid) && kill0_ok

/-- The wait loop of `stop_playback` (lines 209-212):
`for (int i = 0; i < 25; i++) { if (!ffmpeg_alive()) break; ms_sleep(30); }`.
Returns the total milliseconds slept; `aliveAt i` is the result of the
liveness probe at iteration `i`. -/
def stop_wait_ms (aliveAt : Nat → Bool) : Nat → Nat → Nat
  | _, 0 => 0
  | i, fuel + 1 => if aliveAt i then 30 + stop_wait_ms aliveAt (i + 1) fuel else 0

/-- Result of `stop_playback` on the tracked pid / pause flag. -/
structure StopOut where
  pid : Int
  paused : Bool
  sigs : List Sig
  waited_ms : Nat
deriving Repr

/-- `stop_playback()` (lines 202-223). Early-returns when no process is tracked.
Otherwise sends `SIGTERM` to the group, runs the bounded wait loop, then
sends `SIGKILL` to the group unconditionally (line 215 is not guarded by a
liveness test), reaps non-blockingly, and clears the tracked pid and pause flag. -/
def stop_playback_core (pid : Int) (paused : Bool) (aliveAt : Nat → Bool) : StopOut :=
  if pid ≤ 0 then
    { pid := pid, paused := paused, sigs := [], waited_ms := 0 }
  else
    { pid := -1
      paused := false
      sigs := [Sig.SIGTERM, Sig.SIGKILL]
      waited_ms := stop_wait_ms aliveAt 0 25 }

/-- `stop_playback` acting on the daemon state. -/
def stop_playback (d : DaemonState) (env : Env) : DaemonState × List Sig :=
  let r := stop_playback_core d.ffmpeg_pid d.ffmpeg_paused env.stop_alive
  ({ d with ffmpeg_pid := r.pid, ffmpeg_paused := r.paused }, r.sigs)

/-- `pause_ffmpeg()` (lines 225-230): no-op unless alive; sends `SIGSTOP` to the
group and sets the pause flag. -/
def pause_ffmpeg (d : DaemonState) (env : Env) : DaemonState × List Sig :=
  if !(ffmpeg_alive d.ffmpeg_pid env.alive) then (d, [])
  else ({ d with ffmpeg_paused := true }, [Sig.SIGSTOP])

/-- `resume_ffmpeg()` (lines 232-236): no-op unless alive; sends `SIGCONT` to the
group and clears the pause flag. Note: the source checks only `ffmpeg_alive()`,
not `ffmpeg_paused`. -/
def resume_ffmpeg (d : DaemonState) (env : Env) : DaemonState × List Sig :=
  if !(ffmpeg_alive d.ffmpeg_pid env.alive) then (d, [])
  else ({ d with ffmpeg_paused := false }, [Sig.SIGCONT])

/-- `start_playback()` (lines 259-307): stop first (never two at once); if
`pick_random_video` found nothing, log and return; otherwise fork, and in the
parent record the child pid (when `fork` succeeded) and clear the pause flag. -/
def start_playback (d : DaemonState) (env : Env) : DaemonState × List Sig :=
  let r := stop_playback d env
  match env.pick with
  | none => r
  | some _ =>
      if 0 < env.fork_pid then
        ({ r.1 with ffmpeg_pid := env.fork_pid, ffmpeg_paused := false }, r.2)
      else r

/-- Environment for one `static_noise_av` invocation. -/
structure StaticEnv where
  /-- Result of `start_static_audio()`: the forked pid (`> 0` on success, `-1` on failure). -/
  apid : Int
  /-- Whether both `open("/dev/urandom")` and `open(FBDEV)` succeeded and `malloc` returned. -/
  fb_ok : Bool
  /-- Whether the `read(fbur, buf, frame)` at frame iteration `i` returned `> 0`. -/
  read_ok : Nat → Bool

/-- Observable outcome of `static_noise_av`. -/
structure StaticOut where
  /-- Total milliseconds spent in `ms_sleep` calls during the effect (the only
  modelled time; reads and writes are treated as instantaneous). -/
  elapsed_ms : Nat
  /-- Number of noise frames written to the framebuffer. -/
  frames_written : Nat
  /-- Whether a `waitpid(apid, &st, WNOHANG)` — a single non-blocking reap —
  was performed on the noise-audio child. -/
  reaped_nonblocking : Bool
deriving DecidableEq, Repr

/-- The video loop of `static_noise_av` (lines 152-158): up to `STATIC_FRAMES`
iterations, each reading urandom (break on failure), writing a frame and
sleeping 20 ms. Returns the number of completed iterations. -/
def static_frames (read_ok : Nat → Bool) : Nat → Nat → Nat
  | _, 0 => 0
  | i, fuel + 1 => if read_ok i then 1 + static_frames read_ok (i + 1) fuel else 0

/-- `static_noise_av()` (lines 142-173): spawn the noise-audio child, write the
noise frames (20 ms apart), then `ms_sleep(STATIC_MS)` — the full transition
duration, unconditionally — and finally reap the audio child with `WNOHANG`
only (never a blocking wait). -/
def static_noise_av (env : StaticEnv) : StaticOut :=
  let frames := if env.fb_ok then static_frames env.read_ok 0 STATIC_FRAMES else 0
  { elapsed_ms := frames * 20 + STATIC_MS
    frames_written := frames
    reaped_nonblocking := decide (0 < env.apid) }

/-- `schedule_single_tap()` (lines 324-327); `now` is the `now_ms_monotonic()`
reading made inside the function. -/
def schedule_single_tap (d : DaemonState) (now : Int) : DaemonState :=
  { d with pending_single := true, pending_deadline_ms := now + DOUBLE_TAP_WINDOW_MS }

/-- `cancel_single_tap()` (lines 329-332). -/
def cancel_single_tap (d : DaemonState) : DaemonState :=
  { d with pending_single := false, pending_deadline_ms := 0 }

/-- `do_power_off()` (lines 338-345): stop playback, clear fb, backlight off
(external effects not modelled), set state OFF, disarm any pending tap. -/
def do_power_off (d : DaemonState) (env : Env) : DaemonState × List Sig :=
  let r := stop_playback d env
  (cancel_single_tap { r.1 with state := .ST_OFF }, r.2)

/-- `do_power_on()` (lines 347-354): backlight on, clear fb (not modelled),
start playback, set state PLAYING, disarm any pending tap. -/
def do_power_on (d : DaemonState) (env : Env) : DaemonState × List Sig :=
  let r := start_playback d env
  (cancel_single_tap { r.1 with state := .ST_PLAYING }, r.2)

/-- `do_pause_toggle()` (lines 356-368): PLAYING → pause + PAUSED;
PAUSED → resume + PLAYING; otherwise nothing. -/
def do_pause_toggle (d : DaemonState) (env : Env) : DaemonState × List Sig :=
  if d.state = .ST_PLAYING then
    let r := pause_ffmpeg d env
    ({ r.1 with state := .ST_PAUSED }, r.2)
  else if d.state = .ST_PAUSED then
    let r := resume_ffmpeg d env
    ({ r.1 with state := .ST_PLAYING }, r.2)
  else (d, [])

/-- `do_next_episode()` (lines 370-377): refused unless PLAYING; otherwise
stop, play the static transition (daemon state unaffected), start a new
playback, stay PLAYING. -/
def do_next_episode (d : DaemonState) (env : Env) : DaemonState × List Sig :=
  if d.state ≠ .ST_PLAYING then (d, [])
  else
    let r1 := stop_playback d env
    let r2 := start_playback r1.1 env
    ({ r2.1 with state := .ST_PLAYING }, r1.2 ++ r2.2)

/-- `reap_children()` (lines 384-401): for each pid collected by the
`waitpid(-1, ·, WNOHANG)` loop (given here as the list of successive positive
return values), if it is the tracked leader: clear tracking and the pause
flag, and — unless OFF — restart playback only when PLAYING. -/
def reap_children (d : DaemonState) (env : Env) : List Int → DaemonState × List Sig
  | [] => (d, [])
  | p :: rest =>
      let r1 :=
        if p = d.ffmpeg_pid then
          let da := { d with ffmpeg_pid := -1, ffmpeg_paused := false }
          if da.state ≠ .ST_OFF then
            if da.state = .ST_PLAYING then start_playback da env
            else (da, [])
          else (da, [])
        else (d, [])
      let r2 := reap_children r1.1 env rest
      (r2.1, r1.2 ++ r2.2)

/-- The five state-changing operations a controller iteration can perform on
the daemon state (§2 data flow): power-on, power-off, the single-tap
pause/resume toggle, the double-tap next-episode, and a child-reap cycle
collecting the given pids. -/
inductive Op where
  | powerOn
  | powerOff
  | pauseToggle
  | nextEpisode
  | reap (pids : List Int)

/-- One completed transition of the daemon. -/
def stepOp (d : DaemonState) (env : Env) : Op → DaemonState × List Sig
  | .powerOn => do_power_on d env
  | .powerOff => do_power_off d env
  | .pauseToggle => do_pause_toggle d env
  | .nextEpisode => do_next_episode d env
  | .reap pids => reap_children d env pids

/-- Run a sequence of operations, each with its own environment. -/
def runOps : DaemonState → List (Env × Op) → DaemonState
  | d, [] => d
  | d, eo :: rest => runOps (stepOp d eo.1 eo.2).1 rest

/-- Environment in which `start_playback` succeeds: a video was found and
`fork` returned a positive child pid. -/
def envOk (env : Env) : Bool :=
  env.pick.isSome && decide (0 < env.fork_pid)

/-- Side conditions for one step: the environment lets `start_playback`
succeed; reaped pids are positive (`waitpid` return values), and the tracked
leader is not reaped while the daemon is PAUSED. -/
def stepOk (d : DaemonState) : Env × Op → Bool
  | (env, op) =>
      envOk env &&
        match op with
        | .reap pids =>
            pids.all (fun p => decide (0 < p)) &&
              !(decide (d.state = .ST_PAUSED) && pids.contains d.ffmpeg_pid)
        | _ => true

/-- All steps of a run satisfy their side conditions. -/
def runOk : DaemonState → List (Env × Op) → Bool
  | _, [] => true
  | d, eo :: rest => stepOk d eo && runOk (stepOp d eo.1 eo.2).1 rest

-- evdev constants used by the touch handler (linux/input.h).
def EV_KEY : Nat := 1
def BTN_TOUCH : Nat := 330

/-- One `struct input_event` record as consumed by `main` (only type, code and
value are read). -/
structure input_event where
  type_ : Nat
  code : Nat
  value : Nat
deriving DecidableEq, Repr

/-- A BTN_TOUCH release record (`ev.value == 0`). -/
def touch_release : input_event := ⟨EV_KEY, BTN_TOUCH, 0⟩

/-- A BTN_TOUCH press record (`ev.value == 1`). -/
def touch_press : input_event := ⟨EV_KEY, BTN_TOUCH, 1⟩

def is_touch_release (ev : input_event) : Bool :=
  ev.type_ == EV_KEY && ev.code == BTN_TOUCH && ev.value == 0

/-- Output of a controller-loop fragment: new daemon state, signals sent to
the playback group, gesture actions emitted. -/
structure Out where
  d : DaemonState
  sigs : List Sig
  acts : List Act
deriving Repr

/-- The body of the touch-drain loop in `main` (lines 450-472) for one event;
`t` is the `now_ms_monotonic()` reading taken while handling this event (the
consecutive clock reads inside one handler — `t_up` and the read inside
`schedule_single_tap` — are modelled as equal at millisecond granularity).
On a press: record `touching` and the press timestamp. On a release: the
press timestamp and `touching` are not consulted (`dt` is computed and
discarded, line 459); if no single-tap is pending, arm one; otherwise disarm
it and invoke `do_next_episode` — the double-tap action — synchronously. -/
def handle_touch_event (d : DaemonState) (env : Env) (t : Int) (ev : input_event) : Out :=
  if ev.type_ = EV_KEY ∧ ev.code = BTN_TOUCH then
    if ev.value = 1 then
      ⟨{ d with touching := true, t_down_ms := t }, [], []⟩
    else if ev.value = 0 then
      if d.pending_single = false then
        let d1 := schedule_single_tap d t
        ⟨{ d1 with touching := false, t_down_ms := 0 }, [], []⟩
      else
        let r := do_next_episode (cancel_single_tap d) env
        ⟨{ r.1 with touching := false, t_down_ms := 0 }, r.2, [Act.double_tap]⟩
    else ⟨d, [], []⟩
  else ⟨d, [], []⟩

/-- The touch-drain `while (read(...))` loop over the events available this
tick, each paired with the clock reading at which it is handled. -/
def drain_events (d : DaemonState) (env : Env) : List (Int × input_event) → Out
  | [] => ⟨d, [], []⟩
  | (t, ev) :: rest =>
      let o1 := handle_touch_event d env t ev
      let o2 := drain_events o1.d env rest
      ⟨o2.d, o1.sigs ++ o2.sigs, o1.acts ++ o2.acts⟩

/-- Step 2 of the main loop (line 447): events are drained only while the
state is not OFF (the touch fd is assumed open). -/
def drain_step (d : DaemonState) (env : Env) (evs : List (Int × input_event)) : Out :=
  if d.state ≠ .ST_OFF then drain_events d env evs else ⟨d, [], []⟩

/-- Step 3 of the main loop (lines 477-480): if a single-tap is pending and
its window has expired at the fresh clock reading `now`, disarm it and invoke
`do_pause_toggle` — the single-tap action. -/
def expiry_step (d : DaemonState) (env : Env) (now : Int) : Out :=
  if d.pending_single = true ∧ d.pending_deadline_ms ≤ now then
    let r := do_pause_toggle (cancel_single_tap d) env
    ⟨r.1, r.2, [Act.single_tap]⟩
  else ⟨d, [], []⟩

/-- Inputs to one iteration of the main loop. -/
structure Tick where
  /-- `now_ms_monotonic()` at the top of the iteration (line 430). -/
  now : Int
  /-- `switch_is_on()` result, looked up only when the poll cadence allows. -/
  switch_on : Bool
  /-- pids collected by this iteration's `reap_children`. -/
  reaped : List Int
  /-- events available from the touch device this iteration, with the clock
  reading at which each is handled. -/
  events : List (Int × input_event)
  /-- the fresh `now_ms_monotonic()` reading of the expiry check (line 477). -/
  expiry_now : Int
  /-- OS answers for the operations this iteration performs. -/
  env : Env

/-- Step 1b of the main loop (lines 435-444): when the poll cadence allows,
record the poll time and apply the OFF/ON transition on a switch edge. -/
def switch_step (d : DaemonState) (env : Env) (now : Int) (cur_on : Bool) : DaemonState × List Sig :=
  if SWITCH_POLL_MS ≤ now - d.last_switch_poll then
    let da := { d with last_switch_poll := now }
    if cur_on = false ∧ da.state ≠ .ST_OFF then do_power_off da env
    else if cur_on = true ∧ da.state = .ST_OFF then do_power_on da env
    else (da, [])
  else (d, [])

/-- One iteration of the main loop (lines 429-483): reap children, poll the
switch at its cadence and apply the OFF/ON transition on an edge, drain touch
events (when not OFF), then fire an expired single-tap. -/
def tick (d : DaemonState) (tk : Tick) : Out :=
  let r1 := reap_children d tk.env tk.reaped
  let r2 := switch_step r1.1 tk.env tk.now tk.switch_on
  let o3 := drain_step r2.1 tk.env tk.events
  let o4 := expiry_step o3.d tk.env tk.expiry_now
  ⟨o4.d, r1.2 ++ r2.2 ++ o3.sigs ++ o4.sigs, o3.acts ++ o4.acts⟩

/-- Run a sequence of main-loop iterations. -/
def runTicks : DaemonState → List Tick → Out
  | d, [] => ⟨d, [], []⟩
  | d, tk :: rest =>
      let o1 := tick d tk
      let o2 := runTicks o1.d rest
      ⟨o2.d, o1.sigs ++ o2.sigs, o1.acts ++ o2.acts⟩

/-- A drain of `evs` in which every release is handled while no single-tap is
pending (the pending flag threads through the drain: a release arms it). -/
def drainOk : Bool → List (Int × input_event) → Bool
  | _, [] => true
  | p, (_, ev) :: rest =>
      if is_touch_release ev then !p && drainOk true rest
      else drainOk p rest

/-- A tick trace in which the switch stays on and every release is drained
with no single-tap pending — i.e. each earlier tap's window was resolved (by
the expiry step of some previous tick) before the next release is handled. -/
def tapsOk : DaemonState → List Tick → Bool
  | _, [] => true
  | d, tk :: rest =>
      tk.switch_on && drainOk d.pending_single tk.events && tapsOk (tick d tk).d rest

/-- Number of BTN_TOUCH release events drained in a tick trace. -/
def totalReleases (ticks : List Tick) : Nat :=
  (ticks.map (fun tk => tk.events.countP (fun e => is_touch_release e.2))).sum

/-- 1 when a single-tap is armed, 0 otherwise. -/
def pendingCount (d : DaemonState) : Nat :=
  if d.pending_single then 1 else 0

-- Concrete environments and states used to instantiate the theorems.

/-- Environment where every probe succeeds: process-liveness probes answer
alive only outside the stop loop, a video is found, and `fork` returns pid 55. -/
def envGood : Env :=
  { alive := true, stop_alive := fun _ => false, pick := some 1, fork_pid := 55 }

/-- Environment with an empty media library (`pick_random_video` returns NULL)
and no live process. -/
def envNoVideo : Env :=
  { alive := false, stop_alive := fun _ => false, pick := none, fork_pid := -1 }

/-- Daemon playing with tracked leader pid 100. -/
def dPlaying : DaemonState :=
  { initDaemon with ffmpeg_pid := 100, state := .ST_PLAYING }

/-- Daemon playing with a single-tap pending (deadline 320 ms). -/
def dPendingTap : DaemonState :=
  { initDaemon with ffmpeg_pid := 100, state := .ST_PLAYING,
                    pending_single := true, pending_deadline_ms := 320 }

/-- Daemon paused (group frozen) with a single-tap pending. -/
def dPausedPending : DaemonState :=
  { initDaemon with ffmpeg_pid := 100, ffmpeg_paused := true, state := .ST_PAUSED,
                    pending_single := true, pending_deadline_ms := 500 }

/-- Daemon playing with tracked leader pid 7 (crash-recovery scenarios). -/
def dPlaying7 : DaemonState :=
  { initDaemon with ffmpeg_pid := 7, state := .ST_PLAYING }

/-- All-success environment for the transition effect: audio child pid 7,
framebuffer and urandom open, every read succeeds. -/
def staticEnvAll : StaticEnv :=
  { apid := 7, fb_ok := true, read_ok := fun _ => true }

/-- Operation trace: power on, single-tap pause, reap an unrelated child,
power off — all with a well-stocked library. -/
def opsTrace : List (Env × Op) :=
  [(envGood, Op.powerOn), (envGood, Op.pauseToggle),
   (envGood, Op.reap [99]), (envGood, Op.powerOff)]

/-- Tick draining one release at t=0 while playing (arms the 320 ms window). -/
def tickRel0 : Tick :=
  { now := 0, switch_on := true, reaped := [], events := [(0, touch_release)],
    expiry_now := 0, env := envGood }

/-- Tick at t=330 draining a second release: the first tap's deadline (320)
has already passed, but the drain step runs before the expiry step. -/
def tickRel330 : Tick :=
  { now := 330, switch_on := true, reaped := [], events := [(330, touch_release)],
    expiry_now := 330, env := envGood }

/-- Tick at t=330 with no events: the expiry step fires the pending tap. -/
def tickIdle330 : Tick :=
  { now := 330, switch_on := true, reaped := [], events := [],
    expiry_now := 330, env := envGood }

/-! ### Helper lemmas -/

theorem stop_wait_ms_le (aliveAt : Nat → Bool) : ∀ (fuel i : Nat), stop_wait_ms aliveAt i fuel ≤ 30 * fuel
  | 0, _ => Nat.le_refl _
  | fuel + 1, i => by
      unfold stop_wait_ms
      split
      · have := stop_wait_ms_le aliveAt fuel (i + 1)
        omega
      · omega

theorem envOk_pick {env : Env} (h : envOk env = true) : ∃ v, env.pick = some v := by
  cases hp : env.pick with
  | none => simp [envOk, hp] at h
  | some v => exact ⟨v, rfl⟩

theorem envOk_fork {env : Env} (h : envOk env = true) : 0 < env.fork_pid := by
  simp [envOk, Bool.and_eq_true, decide_eq_true_eq] at h
  exact h.2

theorem stop_playback_fst_state (d : DaemonState) (env : Env) :
    (stop_playback d env).1.state = d.state :=
  rfl

theorem stop_playback_fst_pending (d : DaemonState) (env : Env) :
    (stop_playback d env).1.pending_single = d.pending_single :=
  rfl

theorem stop_playback_fst_deadline (d : DaemonState) (env : Env) :
    (stop_playback d env).1.pending_deadline_ms = d.pending_deadline_ms :=
  rfl

theorem stop_playback_fst_pid_nonpos (d : DaemonState) (env : Env) :
    (stop_playback d env).1.ffmpeg_pid ≤ 0 := by
  show (stop_playback_core d.ffmpeg_pid d.ffmpeg_paused env.stop_alive).pid ≤ 0
  unfold stop_playback_core
  split
  · assumption
  · norm_num

theorem start_playback_fst_state (d : DaemonState) (env : Env) :
    (start_playback d env).1.state = d.state := by
  unfold start_playback
  cases env.pick
  · rfl
  · dsimp only
    split <;> rfl

theorem start_playback_fst_pending (d : DaemonState) (env : Env) :
    (start_playback d env).1.pending_single = d.pending_single := by
  unfold start_playback
  cases env.pick
  · rfl
  · dsimp only
    split <;> rfl

theorem start_playback_fst_deadline (d : DaemonState) (env : Env) :
    (start_playback d env).1.pending_deadline_ms = d.pending_deadline_ms := by
  unfold start_playback
  cases env.pick
  · rfl
  · dsimp only
    split <;> rfl

theorem start_playback_ok (d : DaemonState) (env : Env) (h : envOk env = true) :
    (start_playback d env).1 = { d with ffmpeg_pid := env.fork_pid, ffmpeg_paused := false } := by
  obtain ⟨v, hv⟩ := envOk_pick h
  have hf := envOk_fork h
  unfold start_playback
  rw [hv]
  dsimp only
  rw [if_pos hf]
  rfl

theorem do_next_episode_fst_pending (d : DaemonState) (env : Env) :
    (do_next_episode d env).1.pending_single = d.pending_single := by
  unfold do_next_episode
  split
  · rfl
  · exact start_playback_fst_pending (stop_playback d env).1 env

theorem do_next_episode_fst_deadline (d : DaemonState) (env : Env) :
    (do_next_episode d env).1.pending_deadline_ms = d.pending_deadline_ms := by
  unfold do_next_episode
  split
  · rfl
  · exact start_playback_fst_deadline (stop_playback d env).1 env

theorem do_pause_toggle_fst_pending (d : DaemonState) (env : Env) :
    (do_pause_toggle d env).1.pending_single = d.pending_single := by
  unfold do_pause_toggle pause_ffmpeg resume_ffmpeg
  split
  · split <;> rfl
  · split
    · split <;> rfl
    · rfl

theorem do_pause_toggle_fst_pid (d : DaemonState) (env : Env) :
    (do_pause_toggle d env).1.ffmpeg_pid = d.ffmpeg_pid := by
  unfold do_pause_toggle pause_ffmpeg resume_ffmpeg
  split
  · split <;> rfl
  · split
    · split <;> rfl
    · rfl

theorem do_pause_toggle_state_ne_off (d : DaemonState) (env : Env) (h : d.state ≠ .ST_OFF) :
    (do_pause_toggle d env).1.state ≠ .ST_OFF := by
  unfold do_pause_toggle pause_ffmpeg resume_ffmpeg
  split
  · split <;> intro hc <;> exact tv_state_t.noConfusion hc
  · split
    · split <;> intro hc <;> exact tv_state_t.noConfusion hc
    · exact h

theorem reap_children_fst_state (env : Env) (pids : List Int) :
    ∀ d : DaemonState, (reap_children d env pids).1.state = d.state := by
  induction pids with
  | nil => intro d; rfl
  | cons p rest ih =>
      intro d
      unfold reap_children
      dsimp only
      rw [ih]
      split
      · split
        · split
          · rw [start_playback_fst_state]
          · rfl
        · rfl
      · rfl

theorem reap_children_fst_pending (env : Env) (pids : List Int) :
    ∀ d : DaemonState, (reap_children d env pids).1.pending_single = d.pending_single := by
  induction pids with
  | nil => intro d; rfl
  | cons p rest ih =>
      intro d
      unfold reap_children
      dsimp only
      rw [ih]
      split
      · split
        · split
          · rw [start_playback_fst_pending]
          · rfl
        · rfl
      · rfl

/-! ### C2 — stop() escalation -/

/-- C2 counterexample: the claim says a forceful-termination signal is sent
only if the process is still alive after the 25 × 30 ms budget, and that no
forceful signal is sent if the process died during the polling. With tracked
pid 42 and a process that is alive at the first poll check and dead from the
second on (it died during polling, after a single 30 ms sleep, far within the
budget), `stop_playback` nevertheless sends SIGKILL: line 215 of tvd.c runs
unconditionally after the loop. -/
theorem C2_counterexample :
    Sig.SIGKILL ∈ (stop_playback_core 42 false (fun i => i == 0)).sigs ∧
    (fun i : Nat => i == 0) 1 = false ∧
    (stop_playback_core 42 false (fun i => i == 0)).waited_ms = 30 := by
  decide

/-- C2 amended: in stop(), when a process is tracked, the graceful SIGTERM is
followed by a SIGKILL to the group unconditionally — whether or not the
process died during the bounded polling (25 iterations of 30 ms, hence at
most 750 ms of waiting); tracking and the pause flag are always cleared. -/
theorem C2_amended (pid : Int) (paused : Bool) (aliveAt : Nat → Bool) (h : 0 < pid) :
    (stop_playback_core pid paused aliveAt).sigs = [Sig.SIGTERM, Sig.SIGKILL] ∧
    (stop_playback_core pid paused aliveAt).pid = -1 ∧
    (stop_playback_core pid paused aliveAt).paused = false ∧
    (stop_playback_core pid paused aliveAt).waited_ms ≤ 750 := by
  have hnot : ¬ pid ≤ 0 := by omega
  unfold stop_playback_core
  rw [if_neg hnot]
  refine ⟨rfl, rfl, rfl, ?_⟩
  dsimp only
  have := stop_wait_ms_le aliveAt 25 0
  omega

/-- C2 witness: the amended theorem applied to pid 42 with a process that
ignores SIGTERM throughout the polling. -/
theorem C2_amended_witness :
    (stop_playback_core 42 false (fun _ => true)).sigs = [Sig.SIGTERM, Sig.SIGKILL] ∧
    (stop_playback_core 42 false (fun _ => true)).pid = -1 ∧
    (stop_playback_core 42 false (fun _ => true)).paused = false ∧
    (stop_playback_core 42 false (fun _ => true)).waited_ms ≤ 750 :=
  C2_amended 42 false (fun _ => true) (by decide)

/-! ### C3 — resume() guard -/

/-- C3 counterexample: the claim says resume() sends no signal when the
tracked process is alive but not frozen. With tracked pid 100, alive, and the
pause flag clear, `resume_ffmpeg` sends SIGCONT anyway: lines 232-236 test
only `ffmpeg_alive()`, never `ffmpeg_paused`. -/
theorem C3_counterexample :
    ffmpeg_alive dPlaying.ffmpeg_pid envGood.alive = true ∧
    dPlaying.ffmpeg_paused = false ∧
    (resume_ffmpeg dPlaying envGood).2 = [Sig.SIGCONT] := by
  decide

/-- C3 amended: resume() is a no-op unless a process is tracked and alive;
when it is, resume() sends SIGCONT to the group and clears the pause flag
regardless of whether the group is currently frozen. -/
theorem C3_amended (d : DaemonState) (env : Env) :
    (ffmpeg_alive d.ffmpeg_pid env.alive = true →
      resume_ffmpeg d env = ({ d with ffmpeg_paused := false }, [Sig.SIGCONT])) ∧
    (ffmpeg_alive d.ffmpeg_pid env.alive = false →
      resume_ffmpeg d env = (d, [])) := by
  unfold resume_ffmpeg
  constructor <;> intro h <;> rw [h] <;> rfl

/-- C3 witness: the amended theorem applied to an alive, unpaused tracked process. -/
theorem C3_amended_witness :
    resume_ffmpeg dPlaying envGood = ({ dPlaying with ffmpeg_paused := false }, [Sig.SIGCONT]) :=
  (C3_amended dPlaying envGood).1 (by decide)

/-! ### C6 — transition-effect timing -/

/-- C6 counterexample: the claim says the engine waits only the remaining
time up to the 250 ms total effect budget measured from the start of the
effect. When all three noise frames are written (3 × 20 ms) the effect's
sleeps total 310 ms: line 166 sleeps the full `STATIC_MS` after the video
phase instead of the remainder. -/
theorem C6_counterexample :
    (static_noise_av staticEnvAll).frames_written = 3 ∧
    (static_noise_av staticEnvAll).elapsed_ms = 310 ∧
    (static_noise_av staticEnvAll).elapsed_ms ≠ STATIC_MS := by
  decide

/-- C6 amended: after the video phase (at most 3 frames, 20 ms apart, so at
most 60 ms) the engine sleeps the full 250 ms budget — not just the
remainder — so the effect's sleeps total frames × 20 + 250 ≤ 310 ms; it then
performs a single non-blocking reap of the noise-audio process exactly when
one was launched, and never blocks waiting for it. -/
theorem C6_amended (env : StaticEnv) :
    (static_noise_av env).elapsed_ms = (static_noise_av env).frames_written * 20 + STATIC_MS ∧
    (static_noise_av env).frames_written ≤ STATIC_FRAMES ∧
    (static_noise_av env).elapsed_ms ≤ 310 ∧
    (static_noise_av env).reaped_nonblocking = decide (0 < env.apid) := by
  have hle : ∀ fuel i, static_frames env.read_ok i fuel ≤ fuel := by
    intro fuel
    induction fuel with
    | zero => intro i; exact Nat.le_refl 0
    | succ n ih =>
        intro i
        unfold static_frames
        split
        · have := ih (i + 1)
          omega
        · omega
  refine ⟨rfl, ?_, ?_, rfl⟩
  all_goals
    unfold static_noise_av
    dsimp only
    simp only [STATIC_FRAMES, STATIC_MS]
    split
    · have := hle 3 0
      omega
    · omega

/-! ### C8 — off-transition idempotence -/

/-- C8: the off-transition is idempotent. From any daemon state and any pair
of environments, applying `do_power_off` twice yields the same state as
applying it once; the second invocation sends no signals; and the once-off
state is OFF with no tracked process and no pending tap. -/
theorem C8_theorem (d : DaemonState) (env env2 : Env) :
    (do_power_off (do_power_off d env).1 env2).1 = (do_power_off d env).1 ∧
    (do_power_off (do_power_off d env).1 env2).2 = [] ∧
    (do_power_off d env).1.state = .ST_OFF ∧
    ¬ 0 < (do_power_off d env).1.ffmpeg_pid ∧
    (do_power_off d env).1.pending_single = false := by
  unfold do_power_off stop_playback stop_playback_core cancel_single_tap
  by_cases h : d.ffmpeg_pid ≤ 0 <;> simp [h]

/-! ### C4 — double-tap resolution -/

theorem handle_release_pending (d : DaemonState) (env : Env) (t : Int)
    (hpend : d.pending_single = true) :
    (handle_touch_event d env t touch_release).acts = [Act.double_tap] ∧
    (handle_touch_event d env t touch_release).d.pending_single = false ∧
    (handle_touch_event d env t touch_release).d.pending_deadline_ms = 0 := by
  have hb : (handle_touch_event d env t touch_release).d.pending_single = false := by
    unfold handle_touch_event
    simp only [touch_release, hpend]
    norm_num
    show ({ (do_next_episode (cancel_single_tap d) env).1 with
            touching := false, t_down_ms := 0 } : DaemonState).pending_single = false
    show (do_next_episode (cancel_single_tap d) env).1.pending_single = false
    rw [do_next_episode_fst_pending]
    rfl
  have hdl : (handle_touch_event d env t touch_release).d.pending_deadline_ms = 0 := by
    unfold handle_touch_event
    simp only [touch_release, hpend]
    norm_num
    show (do_next_episode (cancel_single_tap d) env).1.pending_deadline_ms = 0
    rw [do_next_episode_fst_deadline]
    rfl
  refine ⟨?_, hb, hdl⟩
  unfold handle_touch_event
  simp only [touch_release, hpend]
  norm_num

/-- C4: when a release is handled while a single-tap is pending, the pending
tap is disarmed and the double-tap action (`do_next_episode`) is emitted in
the same recognition step — synchronously at the second release, with no
further waiting — and the single-tap can no longer fire for that pair: after
the step the expiry check is inert at every later time. -/
theorem C4_theorem (d : DaemonState) (env : Env) (t : Int) (hpend : d.pending_single = true) :
    (handle_touch_event d env t touch_release).acts = [Act.double_tap] ∧
    (handle_touch_event d env t touch_release).d.pending_single = false ∧
    (handle_touch_event d env t touch_release).d.pending_deadline_ms = 0 ∧
    ∀ (env2 : Env) (now : Int),
      expiry_step (handle_touch_event d env t touch_release).d env2 now =
        ⟨(handle_touch_event d env t touch_release).d, [], []⟩ := by
  obtain ⟨ha, hb, hdl⟩ := handle_release_pending d env t hpend
  refine ⟨ha, hb, hdl, ?_⟩
  intro env2 now
  unfold expiry_step
  rw [if_neg]
  intro hc
  rw [hb] at hc
  exact Bool.false_ne_true hc.1

/-- C4 witness: the theorem applied to a playing daemon with a tap pending at
deadline 320, the second release handled at t = 300. -/
theorem C4_witness :
    (handle_touch_event dPendingTap envGood 300 touch_release).acts = [Act.double_tap] ∧
    (handle_touch_event dPendingTap envGood 300 touch_release).d.pending_single = false ∧
    expiry_step (handle_touch_event dPendingTap envGood 300 touch_release).d envGood 400 =
      ⟨(handle_touch_event dPendingTap envGood 300 touch_release).d, [], []⟩ := by
  obtain ⟨h1, h2, _, h4⟩ := C4_theorem dPendingTap envGood 300 (by decide)
  exact ⟨h1, h2, h4 envGood 400⟩

/-! ### C9 — release without a matching press -/

/-- C9: while the state is not OFF, a BTN_TOUCH release is classified as a
tap regardless of the `touching` flag and the recorded press timestamp
(both are arbitrary fields of `d` here and are never consulted): with no tap
pending it arms a single-tap with deadline t + 320 ms, and with one pending
it resolves the pair into a double-tap. -/
theorem C9_theorem (d : DaemonState) (env : Env) (t : Int) (hoff : d.state ≠ .ST_OFF) :
    (d.pending_single = false →
      drain_step d env [(t, touch_release)] =
        ⟨{ d with pending_single := true, pending_deadline_ms := t + DOUBLE_TAP_WINDOW_MS,
                  touching := false, t_down_ms := 0 }, [], []⟩) ∧
    (d.pending_single = true →
      (drain_step d env [(t, touch_release)]).acts = [Act.double_tap] ∧
      (drain_step d env [(t, touch_release)]).d.pending_single = false) := by
  constructor <;> intro hp
  · unfold drain_step
    rw [if_pos hoff]
    unfold drain_events drain_events handle_touch_event schedule_single_tap
    simp only [touch_release, hp]
    norm_num
  · have h4 := handle_release_pending d env t hp
    unfold drain_step
    rw [if_pos hoff]
    show (let o1 := handle_touch_event d env t touch_release
          let o2 := drain_events o1.d env []
          (⟨o2.d, o1.sigs ++ o2.sigs, o1.acts ++ o2.acts⟩ : Out)).acts = [Act.double_tap] ∧
         (let o1 := handle_touch_event d env t touch_release
          let o2 := drain_events o1.d env []
          (⟨o2.d, o1.sigs ++ o2.sigs, o1.acts ++ o2.acts⟩ : Out)).d.pending_single = false
    dsimp only [drain_events]
    rw [List.append_nil]
    exact ⟨h4.1, h4.2.1⟩

/-- C9 witness: a lone release at t = 5 — `touching` is false and the press
timestamp is 0 because no press was ever observed — while playing with
nothing pending: it arms a single-tap with deadline 5 + 320. -/
theorem C9_witness :
    drain_step dPlaying envGood [(5, touch_release)] =
      ⟨{ dPlaying with pending_single := true, pending_deadline_ms := 5 + DOUBLE_TAP_WINDOW_MS,
                       touching := false, t_down_ms := 0 }, [], []⟩ :=
  (C9_theorem dPlaying envGood 5 (by decide)).1 (by decide)

/-! ### C10 — double-tap while PAUSED -/

/-- C10: while PAUSED, a release arriving with a single-tap pending cancels
the pending tap and then does nothing: `do_next_episode` returns immediately
when not PLAYING, so no signal is sent (no resume, no stop/start), the state
stays PAUSED, and tracking and the pause flag are untouched. -/
theorem C10_theorem (d : DaemonState) (env : Env) (t : Int)
    (hst : d.state = .ST_PAUSED) (hpend : d.pending_single = true) :
    drain_step d env [(t, touch_release)] =
      ⟨{ d with pending_single := false, pending_deadline_ms := 0,
                touching := false, t_down_ms := 0 }, [], [Act.double_tap]⟩ := by
  have hoff : d.state ≠ .ST_OFF := by rw [hst]; intro hc; exact tv_state_t.noConfusion hc
  have hne : (cancel_single_tap d).state ≠ .ST_PLAYING := by
    show d.state ≠ .ST_PLAYING
    rw [hst]
    intro hc
    exact tv_state_t.noConfusion hc
  unfold drain_step
  rw [if_pos hoff]
  unfold drain_events drain_events handle_touch_event
  simp only [touch_release, hpend]
  norm_num
  unfold do_next_episode
  rw [if_pos hne]
  repeat' constructor

/-- C10 witness: the theorem applied to a paused daemon with a pending tap,
release handled at t = 400. -/
theorem C10_witness :
    drain_step dPausedPending envGood [(400, touch_release)] =
      ⟨{ dPausedPending with pending_single := false, pending_deadline_ms := 0,
                             touching := false, t_down_ms := 0 }, [], [Act.double_tap]⟩ :=
  C10_theorem dPausedPending envGood 400 (by decide) (by decide)

/-! ### C7 — reaper reconciliation -/

/-- C7 counterexample: the claim says that when the reaper collects the
tracked leader while PLAYING, a new process is tracked in the same reap
cycle. With the media library empty, `start_playback` is invoked but finds
no video, so after the reap cycle no process is tracked while the state is
still PLAYING. -/
theorem C7_counterexample :
    dPlaying7.state = .ST_PLAYING ∧
    (reap_children dPlaying7 envNoVideo [7]).1.ffmpeg_pid = -1 ∧
    (reap_children dPlaying7 envNoVideo [7]).1.state = .ST_PLAYING := by
  decide

/-- C7 amended: when the reaper collects the tracked leader, tracking and the
pause flag are cleared; if the state is PLAYING, start() runs in the same
reap cycle and a replacement is tracked provided the library yields a file
and the launch succeeds (with an empty library nothing is tracked); if the
state is PAUSED, no restart occurs and the state remains PAUSED with no
tracked process. -/
theorem C7_amended (d : DaemonState) (env : Env) (hp : 0 < d.ffmpeg_pid) :
    (d.state = .ST_PLAYING → envOk env = true →
      (reap_children d env [d.ffmpeg_pid]).1 =
        { d with ffmpeg_pid := env.fork_pid, ffmpeg_paused := false } ∧ 0 < env.fork_pid) ∧
    (d.state = .ST_PLAYING → env.pick = none →
      (reap_children d env [d.ffmpeg_pid]).1 =
        { d with ffmpeg_pid := -1, ffmpeg_paused := false }) ∧
    (d.state = .ST_PAUSED →
      (reap_children d env [d.ffmpeg_pid]).1 =
        { d with ffmpeg_pid := -1, ffmpeg_paused := false }) := by
  have hstep : ∀ da : DaemonState,
      (reap_children da env []).1 = da := fun _ => rfl
  refine ⟨?_, ?_, ?_⟩
  · intro hplay hok
    refine ⟨?_, envOk_fork hok⟩
    unfold reap_children
    dsimp only
    rw [hstep, if_pos rfl, hplay]
    split
    · split
      · rw [start_playback_ok _ env hok]
      · exact absurd rfl (by assumption)
    · exact absurd (fun hc => tv_state_t.noConfusion hc) (by assumption)
  · intro hplay hnone
    unfold reap_children
    dsimp only
    rw [hstep, if_pos rfl, hplay]
    split
    · split
      · unfold start_playback
        rw [hnone]
        rfl
      · exact absurd rfl (by assumption)
    · exact absurd (fun hc => tv_state_t.noConfusion hc) (by assumption)
  · intro hpause
    unfold reap_children
    dsimp only
    rw [hstep, if_pos rfl, hpause]
    split
    · split
      · exact tv_state_t.noConfusion (by assumption : tv_state_t.ST_PAUSED = tv_state_t.ST_PLAYING)
      · rfl
    · exact absurd (fun hc => tv_state_t.noConfusion hc) (by assumption)

/-- C7 witness: reaping leader 7 while PLAYING with a stocked library tracks
the replacement pid 55 within the same reap cycle. -/
theorem C7_amended_witness :
    (reap_children dPlaying7 envGood [dPlaying7.ffmpeg_pid]).1 =
      { dPlaying7 with ffmpeg_pid := envGood.fork_pid, ffmpeg_paused := false } ∧
    0 < envGood.fork_pid :=
  (C7_amended dPlaying7 envGood (by decide)).1 (by decide) (by decide)

/-! ### C1 — playback-process/power-state invariant -/

theorem do_power_off_fst_state (d : DaemonState) (env : Env) :
    (do_power_off d env).1.state = .ST_OFF :=
  rfl

theorem do_power_off_fst_pid_nonpos (d : DaemonState) (env : Env) :
    (do_power_off d env).1.ffmpeg_pid ≤ 0 :=
  stop_playback_fst_pid_nonpos d env

theorem do_power_on_ok (d : DaemonState) (env : Env) (h : envOk env = true) :
    (do_power_on d env).1 =
      { d with ffmpeg_pid := env.fork_pid, ffmpeg_paused := false, state := .ST_PLAYING,
               pending_single := false, pending_deadline_ms := 0 } := by
  unfold do_power_on cancel_single_tap
  dsimp only
  rw [start_playback_ok d env h]

theorem do_next_episode_ok (d : DaemonState) (env : Env)
    (hst : d.state = .ST_PLAYING) (h : envOk env = true) :
    (do_next_episode d env).1 =
      { d with ffmpeg_pid := env.fork_pid, ffmpeg_paused := false, state := .ST_PLAYING } := by
  unfold do_next_episode
  rw [if_neg (not_not_intro hst)]
  dsimp only
  rw [start_playback_ok _ env h]
  rfl

theorem do_pause_toggle_state_iff (d : DaemonState) (env : Env) :
    ((do_pause_toggle d env).1.state ≠ .ST_OFF ↔ d.state ≠ .ST_OFF) := by
  unfold do_pause_toggle
  by_cases h1 : d.state = .ST_PLAYING
  · rw [if_pos h1, h1]
    constructor <;> intro _ hc <;> exact tv_state_t.noConfusion hc
  · rw [if_neg h1]
    by_cases h2 : d.state = .ST_PAUSED
    · rw [if_pos h2, h2]
      constructor <;> intro _ hc <;> exact tv_state_t.noConfusion hc
    · rw [if_neg h2]

theorem reap_children_inv (env : Env) (pids : List Int) :
    ∀ d : DaemonState,
      ((0 < d.ffmpeg_pid) ↔ d.state ≠ .ST_OFF) →
      envOk env = true →
      (∀ p ∈ pids, 0 < p) →
      (d.state = .ST_PAUSED → d.ffmpeg_pid ∉ pids) →
      ((0 < (reap_children d env pids).1.ffmpeg_pid) ↔
        (reap_children d env pids).1.state ≠ .ST_OFF) := by
  induction pids with
  | nil => intro d hinv _ _ _; exact hinv
  | cons p rest ih =>
      intro d hinv hok hpos hpause
      unfold reap_children
      dsimp only
      by_cases hm : p = d.ffmpeg_pid
      · rw [if_pos hm]
        cases hst : d.state with
        | ST_OFF =>
            have hppos : 0 < d.ffmpeg_pid := hm ▸ hpos p (List.mem_cons_self p rest)
            exact absurd hst (hinv.mp hppos)
        | ST_PLAYING =>
            split
            · split
              · rw [start_playback_ok _ env hok]
                refine ih _ ?_ hok (fun q hq => hpos q (List.mem_cons_of_mem p hq)) ?_
                · constructor
                  · intro _ hc
                    exact tv_state_t.noConfusion hc
                  · intro _
                    exact envOk_fork hok
                · intro hc
                  exact absurd hc (fun hc2 => tv_state_t.noConfusion hc2)
              · exact absurd rfl (by assumption)
            · exact absurd (fun hc => tv_state_t.noConfusion hc) (by assumption)
        | ST_PAUSED =>
            have : d.ffmpeg_pid ∈ p :: rest := hm ▸ List.mem_cons_self p rest
            exact absurd this (hpause hst)
      · rw [if_neg hm]
        exact ih d hinv hok (fun q hq => hpos q (List.mem_cons_of_mem p hq))
          (fun hps hc => hpause hps (List.mem_cons_of_mem p hc))

theorem stepOp_inv (d : DaemonState) (env : Env) (op : Op)
    (hinv : (0 < d.ffmpeg_pid) ↔ d.state ≠ .ST_OFF)
    (hok : stepOk d (env, op) = true) :
    (0 < (stepOp d env op).1.ffmpeg_pid) ↔ (stepOp d env op).1.state ≠ .ST_OFF := by
  have henv : envOk env = true := by
    cases op <;> simp only [stepOk, Bool.and_eq_true] at hok <;>
      first
        | exact hok
        | exact hok.1
  cases op with
  | powerOn =>
      show (0 < (do_power_on d env).1.ffmpeg_pid) ↔ (do_power_on d env).1.state ≠ .ST_OFF
      rw [do_power_on_ok d env henv]
      constructor
      · intro _ hc; exact tv_state_t.noConfusion hc
      · intro _; exact envOk_fork henv
  | powerOff =>
      show (0 < (do_power_off d env).1.ffmpeg_pid) ↔ (do_power_off d env).1.state ≠ .ST_OFF
      rw [do_power_off_fst_state]
      have := do_power_off_fst_pid_nonpos d env
      constructor
      · intro hc; omega
      · intro hc; exact absurd rfl hc
  | pauseToggle =>
      show (0 < (do_pause_toggle d env).1.ffmpeg_pid) ↔ (do_pause_toggle d env).1.state ≠ .ST_OFF
      rw [do_pause_toggle_fst_pid, do_pause_toggle_state_iff]
      exact hinv
  | nextEpisode =>
      show (0 < (do_next_episode d env).1.ffmpeg_pid) ↔ (do_next_episode d env).1.state ≠ .ST_OFF
      by_cases hst : d.state = .ST_PLAYING
      · rw [do_next_episode_ok d env hst henv]
        constructor
        · intro _ hc; exact tv_state_t.noConfusion hc
        · intro _; exact envOk_fork henv
      · unfold do_next_episode
        rw [if_pos hst]
        exact hinv
  | reap pids =>
      simp only [stepOk, Bool.and_eq_true, List.all_eq_true, decide_eq_true_eq,
        Bool.not_eq_true', Bool.and_eq_false_iff] at hok
      refine reap_children_inv env pids d hinv henv hok.2.1 ?_
      intro hps hc
      rcases hok.2.2 with h | h
      · rw [decide_eq_false_iff_not] at h
        exact h hps
      · have h2 : pids.contains d.ffmpeg_pid = true := List.elem_eq_true_of_mem hc
        rw [h] at h2
        exact Bool.false_ne_true h2

/-- C1 counterexample: the claim asserts the tracked-process ⇔ power-on
invariant holds after every completed transition including when the media
library is empty at start(). Powering on from the initial state with an
empty library completes the transition with state PLAYING and no tracked
process, so the equivalence fails. -/
theorem C1_counterexample :
    (stepOp initDaemon envNoVideo .powerOn).1.state = .ST_PLAYING ∧
    ¬ 0 < (stepOp initDaemon envNoVideo .powerOn).1.ffmpeg_pid := by
  decide

/-- C1 amended: for every sequence of operations (power-on, power-off, pause
toggle, next-episode, child reap), the invariant "a playback process is
tracked iff the power state is not OFF" is preserved by every transition,
provided each start() finds a video and launches successfully and the
tracked leader is never reaped while PAUSED. (The excluded cases are real
violations: see the counterexample, and the PAUSED reap leaves PAUSED with
no process.) -/
theorem C1_amended (tr : List (Env × Op)) : ∀ d : DaemonState,
    ((0 < d.ffmpeg_pid) ↔ d.state ≠ .ST_OFF) → runOk d tr = true →
    ((0 < (runOps d tr).ffmpeg_pid) ↔ (runOps d tr).state ≠ .ST_OFF) := by
  induction tr with
  | nil => intro d hinv _; exact hinv
  | cons eo rest ih =>
      intro d hinv hok
      unfold runOk at hok
      rw [Bool.and_eq_true] at hok
      exact ih (stepOp d eo.1 eo.2).1 (stepOp_inv d eo.1 eo.2 hinv hok.1) hok.2

/-- C1 witness: the amended invariant along the concrete trace power-on,
pause, reap of an unrelated child, power-off, from the initial state. -/
theorem C1_amended_witness :
    runOk initDaemon opsTrace = true ∧
    ((0 < (runOps initDaemon opsTrace).ffmpeg_pid) ↔
      (runOps initDaemon opsTrace).state ≠ .ST_OFF) :=
  ⟨by decide, C1_amended opsTrace initDaemon (by decide) (by decide)⟩

/-! ### C5 — well-separated taps -/

theorem is_touch_release_iff (ev : input_event) :
    is_touch_release ev = true ↔ (ev.type_ = EV_KEY ∧ ev.code = BTN_TOUCH ∧ ev.value = 0) := by
  simp [is_touch_release, Bool.and_eq_true, beq_iff_eq, and_assoc]

theorem handle_touch_event_release (d : DaemonState) (env : Env) (t : Int) (ev : input_event)
    (h : is_touch_release ev = true) (hp : d.pending_single = false) :
    handle_touch_event d env t ev =
      ⟨{ d with pending_single := true, pending_deadline_ms := t + DOUBLE_TAP_WINDOW_MS,
                touching := false, t_down_ms := 0 }, [], []⟩ := by
  obtain ⟨h1, h2, h3⟩ := (is_touch_release_iff ev).mp h
  unfold handle_touch_event schedule_single_tap
  rw [if_pos ⟨h1, h2⟩, h3, if_neg (by decide : ¬ (0 : Nat) = 1), if_pos rfl, if_pos hp]

theorem handle_touch_event_non_release (d : DaemonState) (env : Env) (t : Int) (ev : input_event)
    (h : is_touch_release ev = false) :
    (handle_touch_event d env t ev).sigs = [] ∧
    (handle_touch_event d env t ev).acts = [] ∧
    (handle_touch_event d env t ev).d.pending_single = d.pending_single ∧
    (handle_touch_event d env t ev).d.state = d.state := by
  unfold handle_touch_event
  split
  · rename_i hk
    split
    · exact ⟨rfl, rfl, rfl, rfl⟩
    · split
      · rename_i hv0
        rw [(is_touch_release_iff ev).mpr ⟨hk.1, hk.2, hv0⟩] at h
        exact Bool.noConfusion h
      · exact ⟨rfl, rfl, rfl, rfl⟩
  · exact ⟨rfl, rfl, rfl, rfl⟩

theorem drain_events_taps (env : Env) (evs : List (Int × input_event)) :
    ∀ d : DaemonState, drainOk d.pending_single evs = true →
      (drain_events d env evs).acts = [] ∧
      (drain_events d env evs).sigs = [] ∧
      (drain_events d env evs).d.state = d.state ∧
      pendingCount (drain_events d env evs).d =
        pendingCount d + evs.countP (fun e => is_touch_release e.2) := by
  induction evs with
  | nil =>
      intro d _
      refine ⟨rfl, rfl, rfl, ?_⟩
      rw [List.countP_nil]
      exact (Nat.add_zero (pendingCount d)).symm
  | cons e rest ih =>
      intro d h
      obtain ⟨t, ev⟩ := e
      unfold drainOk at h
      cases hrel : is_touch_release ev with
      | true =>
          rw [if_pos hrel, Bool.and_eq_true, Bool.not_eq_true'] at h
          have hh := handle_touch_event_release d env t ev hrel h.1
          unfold drain_events
          dsimp only
          rw [hh]
          dsimp only
          have ihr := ih { d with pending_single := true,
                                  pending_deadline_ms := t + DOUBLE_TAP_WINDOW_MS,
                                  touching := false, t_down_ms := 0 } h.2
          refine ⟨by rw [ihr.1]; rfl, by rw [ihr.2.1]; rfl, by rw [ihr.2.2.1], ?_⟩
          rw [ihr.2.2.2, List.countP_cons]
          have e1 : pendingCount ({ d with pending_single := true,
                                           pending_deadline_ms := t + DOUBLE_TAP_WINDOW_MS,
                                           touching := false, t_down_ms := 0 }) = 1 := rfl
          have e2 : pendingCount d = 0 := by
            unfold pendingCount
            rw [h.1]
            rfl
          rw [e1, e2]
          simp only [hrel, if_true]
          omega
      | false =>
          rw [if_neg (by rw [hrel]; exact Bool.noConfusion)] at h
          obtain ⟨hs, ha, hpd, hst⟩ := handle_touch_event_non_release d env t ev hrel
          unfold drain_events
          dsimp only
          have ihr := ih (handle_touch_event d env t ev).d (by rw [hpd]; exact h)
          refine ⟨?_, ?_, ?_, ?_⟩
          · rw [ha, ihr.1, List.nil_append]
          · rw [hs, ihr.2.1, List.nil_append]
          · rw [ihr.2.2.1, hst]
          · rw [ihr.2.2.2, List.countP_cons]
            have e3 : pendingCount (handle_touch_event d env t ev).d = pendingCount d := by
              unfold pendingCount
              rw [hpd]
            rw [e3]
            simp [hrel]

theorem switch_step_on (d : DaemonState) (env : Env) (now : Int) (h : d.state ≠ .ST_OFF) :
    (switch_step d env now true).1 = d ∨
    (switch_step d env now true).1 = { d with last_switch_poll := now } := by
  unfold switch_step
  split
  · right
    rw [if_neg (fun hc => Bool.noConfusion hc.1),
        if_neg (fun hc => h hc.2)]
  · left
    rfl

theorem expiry_step_taps (d : DaemonState) (env : Env) (now : Int) (h : d.state ≠ .ST_OFF) :
    (expiry_step d env now).d.state ≠ .ST_OFF ∧
    Act.double_tap ∉ (expiry_step d env now).acts ∧
    (expiry_step d env now).acts.count Act.single_tap + pendingCount (expiry_step d env now).d =
      pendingCount d := by
  unfold expiry_step
  split
  · rename_i hc
    refine ⟨?_, ?_, ?_⟩
    · exact (do_pause_toggle_state_iff (cancel_single_tap d) env).mpr h
    · intro hmem
      rw [List.mem_singleton] at hmem
      exact Act.noConfusion hmem
    · have hp := do_pause_toggle_fst_pending (cancel_single_tap d) env
      dsimp only
      rw [List.count_singleton]
      unfold pendingCount
      rw [hp]
      show (1 + if false = true then 1 else 0) = if d.pending_single = true then 1 else 0
      rw [hc.1]
      norm_num
  · refine ⟨h, by intro hmem; exact (List.not_mem_nil _ hmem), ?_⟩
    show List.count Act.single_tap [] + pendingCount d = pendingCount d
    rw [List.count_nil]
    omega

theorem tick_taps (d : DaemonState) (tk : Tick)
    (hoff : d.state ≠ .ST_OFF) (hsw : tk.switch_on = true)
    (hdr : drainOk d.pending_single tk.events = true) :
    (tick d tk).d.state ≠ .ST_OFF ∧
    Act.double_tap ∉ (tick d tk).acts ∧
    (tick d tk).acts.count Act.single_tap + pendingCount (tick d tk).d =
      pendingCount d + tk.events.countP (fun e => is_touch_release e.2) := by
  have h1s := reap_children_fst_state tk.env tk.reaped d
  have h1p := reap_children_fst_pending tk.env tk.reaped d
  have h2 := switch_step_on (reap_children d tk.env tk.reaped).1 tk.env tk.now
    (by rw [h1s]; exact hoff)
  unfold tick
  dsimp only
  rw [hsw]
  have key : ∀ d2 : DaemonState, d2.state = d.state → d2.pending_single = d.pending_single →
      (drain_step d2 tk.env tk.events).acts = [] ∧
      (drain_step d2 tk.env tk.events).d.state = d.state ∧
      pendingCount (drain_step d2 tk.env tk.events).d =
        pendingCount d + tk.events.countP (fun e => is_touch_release e.2) := by
    intro d2 hs hp
    unfold drain_step
    rw [if_pos (by rw [hs]; exact hoff)]
    have hD := drain_events_taps tk.env tk.events d2 (by rw [hp]; exact hdr)
    refine ⟨hD.1, by rw [hD.2.2.1, hs], ?_⟩
    rw [hD.2.2.2]
    unfold pendingCount
    rw [hp]
  rcases h2 with h2 | h2
  · rw [h2]
    obtain ⟨hda, hds, hdc⟩ := key (reap_children d tk.env tk.reaped).1 h1s h1p
    obtain ⟨hes, hem, hec⟩ := expiry_step_taps _ tk.env tk.expiry_now (by rw [hds]; exact hoff)
    refine ⟨hes, ?_, ?_⟩
    · rw [hda, List.nil_append]
      exact hem
    · rw [hda, List.nil_append, hec, hdc]
  · rw [h2]
    obtain ⟨hda, hds, hdc⟩ :=
      key ({ (reap_children d tk.env tk.reaped).1 with last_switch_poll := tk.now }) h1s h1p
    obtain ⟨hes, hem, hec⟩ := expiry_step_taps _ tk.env tk.expiry_now (by rw [hds]; exact hoff)
    refine ⟨hes, ?_, ?_⟩
    · rw [hda, List.nil_append]
      exact hem
    · rw [hda, List.nil_append, hec, hdc]

theorem totalReleases_cons (tk : Tick) (rest : List Tick) :
    totalReleases (tk :: rest) =
      tk.events.countP (fun e => is_touch_release e.2) + totalReleases rest := by
  unfold totalReleases
  rw [List.map_cons, List.sum_cons]

theorem runTicks_taps (ticks : List Tick) :
    ∀ d : DaemonState, d.state ≠ .ST_OFF → tapsOk d ticks = true →
      (runTicks d ticks).d.state ≠ .ST_OFF ∧
      Act.double_tap ∉ (runTicks d ticks).acts ∧
      (runTicks d ticks).acts.count Act.single_tap + pendingCount (runTicks d ticks).d =
        pendingCount d + totalReleases ticks := by
  induction ticks with
  | nil =>
      intro d h _
      refine ⟨h, by intro hmem; exact (List.not_mem_nil _ hmem), ?_⟩
      show List.count Act.single_tap [] + pendingCount d = pendingCount d + totalReleases []
      unfold totalReleases
      rw [List.count_nil, List.map_nil, List.sum_nil]
      omega
  | cons tk rest ih =>
      intro d hoff hok
      unfold tapsOk at hok
      rw [Bool.and_eq_true, Bool.and_eq_true] at hok
      obtain ⟨⟨hsw, hdr⟩, hrest⟩ := hok
      obtain ⟨hts, htm, htc⟩ := tick_taps d tk hoff hsw hdr
      obtain ⟨his, him, hic⟩ := ih (tick d tk).d hts hrest
      unfold runTicks
      dsimp only
      refine ⟨his, ?_, ?_⟩
      · intro hmem
        rw [List.mem_append] at hmem
        rcases hmem with hmem | hmem
        · exact htm hmem
        · exact him hmem
      · rw [List.count_append, totalReleases_cons]
        omega

/-- C5 counterexample: the claim says that for releases separated by more
than the 320 ms window no double-tap ever fires, including when a release is
drained in a tick that runs after the earlier tap's deadline passed. Two
releases handled at t = 0 and t = 330 (gap 330 > 320), with no tick in
between, produce exactly a double-tap and no single-tap: the drain step runs
before the expiry step, so the second release still sees the pending tap. -/
theorem C5_counterexample :
    (330 : Int) - 0 > DOUBLE_TAP_WINDOW_MS ∧
    (runTicks dPlaying [tickRel0, tickRel330]).acts = [Act.double_tap] := by
  decide

/-- C5 amended: over any tick trace in which the switch stays on and every
release is drained while no single-tap is pending (i.e. the previous tap's
window was resolved by the expiry step of an earlier tick before the next
release is drained — which a gap > 320 ms guarantees only when a tick runs
between deadline and next release), no double-tap action ever fires and the
number of single-tap (pause/resume toggle) actions equals the number of
releases, minus the one still pending at the end if any. -/
theorem C5_amended (d : DaemonState) (ticks : List Tick)
    (h0 : d.pending_single = false) (hoff : d.state ≠ .ST_OFF)
    (hok : tapsOk d ticks = true) :
    Act.double_tap ∉ (runTicks d ticks).acts ∧
    (runTicks d ticks).acts.count Act.single_tap + pendingCount (runTicks d ticks).d =
      totalReleases ticks := by
  obtain ⟨_, hm, hc⟩ := runTicks_taps ticks d hoff hok
  refine ⟨hm, ?_⟩
  rw [hc]
  unfold pendingCount
  rw [h0]
  norm_num

/-- C5 witness: a release at t = 0 then an idle tick at t = 330 whose expiry
step fires the single-tap: one single-tap, no double-tap. -/
theorem C5_amended_witness :
    tapsOk dPlaying [tickRel0, tickIdle330] = true ∧
    Act.double_tap ∉ (runTicks dPlaying [tickRel0, tickIdle330]).acts ∧
    (runTicks dPlaying [tickRel0, tickIdle330]).acts.count Act.single_tap +
        pendingCount (runTicks dPlaying [tickRel0, tickIdle330]).d =
      totalReleases [tickRel0, tickIdle330] :=
  ⟨by decide, C5_amended dPlaying [tickRel0, tickIdle330] (by decide) (by decide) (by decide)⟩

end Tvd
